import Mathlib

/-!
Verification of the Lazy Scholar CLI core (src/scholar.py) against its
natural-language specification.

The Python source is shallowly embedded below.  Dict-shaped API records are
modelled as typed structures whose fields mirror exactly the keys the code
reads (with `Option` capturing a possibly-missing key, and Python truthiness
made explicit at each access site).  Python floats used for timestamps and
concept scores are modelled as rationals (`Rat`).  The regular expression
`(10\.\d{4,9}/[^\s"'<>\])}{,]+)` is modelled over `List Char` with Python's
leftmost-match, greedy-quantifier semantics; the character classes `\d` and
`\s` are taken at their ASCII meaning.
-/

set_option maxHeartbeats 1000000

/-! ## DOI extraction (scholar.py lines 35, 186-195) -/

/-- ASCII whitespace, the `\s` class of the DOI regex. -/
def isSpaceChar (c : Char) : Bool :=
  c = ' ' || c = '\t' || c = '\n' || c = '\r' || c = '\x0b' || c = '\x0c'

/-- The negated character class of the DOI regex excludes whitespace and
the characters listed in the pattern string at line 35. -/
def isExcludedChar (c : Char) : Bool :=
  isSpaceChar c || c = '"' || c = '\'' || c = '<' || c = '>' || c = ']' ||
    c = ')' || c = '\x7d' || c = '\x7b' || c = ','

/-- Characters accepted by the `[^...]+` part of the DOI regex. -/
def isAllowedChar (c : Char) : Bool := !(isExcludedChar c)

/-- Continuation of one `DOI_REGEX` attempt after the digit run `ds`:
the remainder must start with `/`, and then the greedy `[^...]+` takes
the maximal run of allowed characters, which must be non-empty. -/
def matchSlashBody (ds : List Char) : List Char → Option (List Char)
  | s :: r3 =>
    if s = '/' then
      let body := r3.takeWhile isAllowedChar
      if body = [] then none else some ('1' :: '0' :: '.' :: (ds ++ s :: body))
    else none
  | [] => none

/-- One attempt of `DOI_REGEX` at the start of `l`.  `10\.` must match
literally; then the greedy `\d{4,9}` followed by `/` succeeds exactly when
the maximal digit run has length between 4 and 9 and is followed by `/`
(backtracking to a shorter run always leaves a digit, not `/`); the rest
of the attempt is `matchSlashBody`.  Returns the matched group. -/
def matchAt : List Char → Option (List Char)
  | a :: b :: c :: rest =>
    if a = '1' ∧ b = '0' ∧ c = '.' then
      let ds := rest.takeWhile Char.isDigit
      if 4 ≤ ds.length ∧ ds.length ≤ 9 then
        matchSlashBody ds (rest.dropWhile Char.isDigit)
      else none
    else none
  | _ => none

/-- `DOI_REGEX.search`: the match at the leftmost position where one
exists. -/
def searchDoi : List Char → Option (List Char)
  | [] => none
  | c :: t =>
    match matchAt (c :: t) with
    | some g => some g
    | none => searchDoi t

/-- The characters removed by `rstrip(".,;:")` at line 190. -/
def isTrailPunct (c : Char) : Bool := c = '.' || c = ',' || c = ';' || c = ':'

/-- Python `str.rstrip(".,;:")`: remove the maximal trailing run of the
given punctuation characters. -/
def pyRstrip (l : List Char) : List Char := (l.reverse.dropWhile isTrailPunct).reverse

/-- The extension list of line 191, in loop order. -/
def extTable : List (List Char) := [".pdf".data, ".html".data, ".full".data, ".xml".data]

/-- One iteration of the extension loop (lines 191-193):
`if doi.lower().endswith(ext): doi = doi[:-len(ext)]`. -/
def stripExtOnce (doi ext : List Char) : List Char :=
  if ext <:+ doi.map Char.toLower then doi.take (doi.length - ext.length) else doi

/-- The whole extension loop: each extension is tested once, in order,
against the current value. -/
def stripExts (doi : List Char) : List Char := extTable.foldl stripExtOnce doi

/-- `extract_doi` (lines 186-195): search for the DOI grammar, strip
trailing punctuation, then run the extension loop. -/
def extract_doi (s : String) : Option String :=
  match searchDoi s.data with
  | some g => some (String.mk (stripExts (pyRstrip g)))
  | none => none

/-! ## Rate limiting (scholar.py lines 46-47, 56-85)

`check_rate_limit` reads the ledger, prunes it to the one-hour window,
sleeps if the newest entry is too recent, and exits if the hourly ceiling
is reached.  Time values (Python floats) are modelled as rationals; the
effects (`time.sleep`, `sys.exit`) are reified in the returned outcome. -/

def MIN_INTERVAL_SECONDS : Rat := 5

def MAX_REQUESTS_PER_HOUR : Nat := 10

/-- Line 68: `[ts for ts in timestamps if now - ts < window]` with
`window = 3600`. -/
def pruneWindow (now : Rat) (l : List Rat) : List Rat :=
  l.filter (fun ts => now - ts < 3600)

/-- Python `max` on a list, `none` on the empty list. -/
def pyMax : List Rat → Option Rat
  | [] => none
  | t :: ts => some (ts.foldl max t)

/-- Python `min` on a list, `none` on the empty list. -/
def pyMin : List Rat → Option Rat
  | [] => none
  | t :: ts => some (ts.foldl min t)

/-- Observable outcome of the gate: how long it sleeps (interval check,
lines 70-75), whether it exits (quota check, lines 77-85), and the
reported seconds until the oldest entry expires. -/
structure GateOutcome where
  wait : Option Rat
  quotaExceeded : Bool
  retryAfter : Option Rat
deriving DecidableEq, Repr

/-- `check_rate_limit` as a pure function of the current time and the
ledger contents.  The interval check (sleep) runs before the quota check
(exit), exactly as in the source. -/
def check_rate_limit (now : Rat) (stored : List Rat) : GateOutcome :=
  let timestamps := pruneWindow now stored
  let wait : Option Rat :=
    match pyMax timestamps with
    | some m => if now - m < MIN_INTERVAL_SECONDS then some (MIN_INTERVAL_SECONDS - (now - m)) else none
    | none => none
  if MAX_REQUESTS_PER_HOUR ≤ timestamps.length then
    { wait := wait, quotaExceeded := true,
      retryAfter :=
        match pyMin timestamps with
        | some o => some (3600 - (now - o))
        | none => none }
  else
    { wait := wait, quotaExceeded := false, retryAfter := none }

/-! ## Transport wrapper (scholar.py lines 139-179)

`_get` (lines 139-157) and `_post` (lines 160-179) share the same retry
control flow; headers and payload play no role in it.  Each loop iteration
issues one request; its visible outcome is abstracted as an event: an OK
response with a parseable body, a non-OK status code, or an exception
raised by the transport or by body parsing.  Sleeps are recorded as tags
(`backoff429` stands for the `random.uniform(3, 8)` backoff, `fixed2` for
the fixed `time.sleep(2)`). -/

inductive HttpEvent where
  | success (body : String)
  | failure (status : Nat)
  | raised
deriving DecidableEq, Repr

inductive SleepTag where
  | backoff429
  | fixed2
deriving DecidableEq, Repr

/-- The `for attempt in range(retries + 1)` loop shared by `_get` and
`_post`: an OK response returns its body; a 429 with budget left sleeps a
backoff and retries; any other non-OK status returns the no-data value at
once; an exception with budget left sleeps 2 seconds and retries; at the
final attempt both give up.  The function is total, so the wrapper never
raises. -/
def requestLoop : Nat → Nat → List HttpEvent → List SleepTag → Option String × List SleepTag
  | _, _, [], sleeps => (none, sleeps.reverse)
  | attempt, retries, e :: rest, sleeps =>
    match e with
    | .success body => (some body, sleeps.reverse)
    | .failure status =>
      if status = 429 ∧ attempt < retries then
        requestLoop (attempt + 1) retries rest (SleepTag.backoff429 :: sleeps)
      else (none, sleeps.reverse)
    | .raised =>
      if attempt < retries then
        requestLoop (attempt + 1) retries rest (SleepTag.fixed2 :: sleeps)
      else (none, sleeps.reverse)

/-- `_get` with the default retry budget (`retries=2`). -/
def pyGet (events : List HttpEvent) : Option String × List SleepTag :=
  requestLoop 0 2 events []

/-- `_post` with the default retry budget: identical control flow. -/
def pyPost (events : List HttpEvent) : Option String × List SleepTag :=
  requestLoop 0 2 events []

/-! ## Source records (scholar.py lines 397-460, 467-475)

Each structure mirrors exactly the keys the renderer reads from one
source's JSON record; `Option` marks a possibly-missing key, and the
field default is the record with every key missing (Python `{}`), which
is also what `report["sources"].get(name, {})` yields for an absent
source.  Hyphenated JSON keys are written with underscores. -/

structure CRAuthor where
  given : String := ""
  family : String := ""

structure CRUpdate where
  label : String := ""

structure CRLicense where
  URL : String := ""

structure CRFunder where
  name : Option String := none
  award : List String := []

structure CRRef where
  DOI : Option String := none

structure CRRelation where
  is_retracted_by : List String := []
  has_expression_of_concern : List String := []

structure CrossRef where
  title : Option (List String) := none
  author : List CRAuthor := []
  container_title : List String := []
  volume : String := ""
  issue : String := ""
  page : String := ""
  type : Option String := none
  is_referenced_by_count : Option Int := none
  abstract : Option String := none
  license : List CRLicense := []
  funder : List CRFunder := []
  reference : List CRRef := []
  relation : CRRelation := {}
  update_to : List CRUpdate := []
  updated_by : List CRUpdate := []
  published_print : Option (List (List Int)) := none
  published_online : Option (List (List Int)) := none
  issued : Option (List (List Int)) := none
  created : Option (List (List Int)) := none

structure SSAuthor where
  name : String := ""

structure SSTldr where
  text : Option String := none

structure SSPdf where
  url : Option String := none

structure SSJournal where
  name : Option String := none

structure SemanticScholar where
  title : Option String := none
  authors : List SSAuthor := []
  citationCount : Option Int := none
  influentialCitationCount : Option Int := none
  tldr : Option SSTldr := none
  openAccessPdf : Option SSPdf := none
  publicationTypes : Option (List String) := none
  publicationDate : Option String := none
  journal : Option SSJournal := none

structure OAAuthor where
  display_name : String := ""

structure OAAuthorship where
  author : Option OAAuthor := none

structure OAPercentile where
  min : Option Int := none

structure OAOpenAccess where
  oa_status : Option String := none
  oa_url : Option String := none

structure OAConcept where
  display_name : Option String := none
  score : Option Rat := none

structure OpenAlex where
  title : Option String := none
  authorships : List OAAuthorship := []
  cited_by_count : Option Int := none
  cited_by_percentile_year : Option OAPercentile := none
  open_access : Option OAOpenAccess := none
  concepts : List OAConcept := []
  publication_year : Option Int := none

structure EPMCUrl where
  documentStyle : Option String := none
  url : String := ""

structure EPMCFtl where
  fullTextUrl : List EPMCUrl := []

structure EuropePMC where
  title : Option String := none
  authorString : String := ""
  journalTitle : Option String := none
  abstractText : Option String := none
  citedByCount : Option Int := none
  isOpenAccess : Option String := none
  fullTextUrlList : Option EPMCFtl := none
  pubYear : Option String := none

/-- The PubPeer `users` field is an int, a float or a string in the wild;
the renderer branches on its runtime type (lines 594-600).  Floats are
subsumed by the integer case here. -/
inductive PPUsers where
  | num (n : Int)
  | str (s : String)

structure PubPeer where
  total_comments : Int := 0
  users : PPUsers := PPUsers.str ""
  url : Option String := none

structure RecAuthor where
  name : Option String := none

structure Rec where
  title : Option String := none
  authors : List RecAuthor := []
  year : Option Int := none
  citationCount : Int := 0

/-- A value of the `report["sources"]` mapping. -/
inductive SrcVal where
  | crossref (c : CrossRef)
  | openalex (o : OpenAlex)
  | semantic_scholar (s : SemanticScholar)
  | europepmc (e : EuropePMC)
  | pubpeer (p : PubPeer)

/-- The aggregate report assembled by `aggregate_paper_data` (lines
397-460).  `sources` is an association list so that the (ir)relevance of
its ordering can be stated; Python dict keys are unique, matched here by
a no-duplicate-keys hypothesis where it matters. -/
structure Report where
  doi : String
  sources : List (String × SrcVal) := []
  pmid : Option String := none
  pmc_id : Option String := none
  hypothesis_annotations : Int := 0
  recommendations : List Rec := []

/-- Dict lookup on the sources mapping (first matching key). -/
def lookupSrc : List (String × SrcVal) → String → Option SrcVal
  | [], _ => none
  | (k, v) :: rest, key => if k = key then some v else lookupSrc rest key

/-- `report["sources"].get("crossref", {})` (line 471). -/
def crOf (s : List (String × SrcVal)) : CrossRef :=
  match lookupSrc s "crossref" with
  | some (SrcVal.crossref c) => c
  | _ => {}

/-- `report["sources"].get("openalex", {})` (line 472). -/
def oaOf (s : List (String × SrcVal)) : OpenAlex :=
  match lookupSrc s "openalex" with
  | some (SrcVal.openalex o) => o
  | _ => {}

/-- `report["sources"].get("semantic_scholar", {})` (line 473). -/
def ssOf (s : List (String × SrcVal)) : SemanticScholar :=
  match lookupSrc s "semantic_scholar" with
  | some (SrcVal.semantic_scholar x) => x
  | _ => {}

/-- `report["sources"].get("europepmc", {})` (line 474). -/
def epmcOf (s : List (String × SrcVal)) : EuropePMC :=
  match lookupSrc s "europepmc" with
  | some (SrcVal.europepmc e) => e
  | _ => {}

/-- `report["sources"].get("pubpeer")` (line 475): no default, so absence
is preserved. -/
def ppOf (s : List (String × SrcVal)) : Option PubPeer :=
  match lookupSrc s "pubpeer" with
  | some (SrcVal.pubpeer p) => some p
  | _ => none

/-! ## Field reconciliation helpers (scholar.py lines 477-482, 681-817) -/

/-- Python `str.strip()` restricted to ASCII whitespace. -/
def pyStrip (s : String) : String :=
  String.mk (((s.data.dropWhile isSpaceChar).reverse.dropWhile isSpaceChar).reverse)

/-- Python `x or y` for a string-or-absent value: an absent or empty
string falls through to `y`. -/
def pyOrS (a b : Option String) : Option String :=
  match a with
  | some s => if s = "" then b else some s
  | none => b

/-- Lines 478-480: `(cr.get("title", [None]) or [None])` followed by
taking the first element of the list. -/
def cr_first_title (cr : CrossRef) : Option String :=
  match cr.title with
  | some (t :: _) => some t
  | _ => none

/-- Line 481: the title priority chain
CrossRef → Semantic Scholar → OpenAlex → Europe PMC → the identifier. -/
def reconcile_title (cr : CrossRef) (ss : SemanticScholar) (oa : OpenAlex)
    (epmc : EuropePMC) (doi : String) : String :=
  match pyOrS (pyOrS (pyOrS (cr_first_title cr) ss.title) oa.title) epmc.title with
  | some s => if s = "" then doi else s
  | none => doi

/-- Lines 684-694: CrossRef given/family names joined and stripped, empty
names dropped. -/
def crossref_names (cr : CrossRef) : List String :=
  (cr.author.map (fun a => pyStrip (a.given ++ " " ++ a.family))).filter
    (fun n => decide (n ≠ ""))

/-- Lines 697-699: OpenAlex authorship display names, empty ones dropped
by the comprehension filter. -/
def openalex_names (oa : OpenAlex) : List String :=
  (oa.authorships.map (fun a =>
      match a.author with
      | some au => au.display_name
      | none => "")).filter (fun n => decide (n ≠ ""))

/-- Lines 702-704: Semantic Scholar author names, empty ones dropped. -/
def semantic_names (ss : SemanticScholar) : List String :=
  (ss.authors.map (fun a => a.name)).filter (fun n => decide (n ≠ ""))

/-- `_extract_authors` (lines 681-711).  The CrossRef stage falls through
when it yields no non-empty name (`if names:`); the OpenAlex and Semantic
Scholar stages are guarded by the presence of entries (`if authorships:`,
`if ss_authors:`), not by the filtered name lists. -/
def extract_authors (cr : CrossRef) (oa : OpenAlex) (ss : SemanticScholar)
    (epmc : EuropePMC) : List String :=
  if crossref_names cr ≠ [] then crossref_names cr
  else
    match oa.authorships with
    | _ :: _ => openalex_names oa
    | [] =>
      match ss.authors with
      | _ :: _ => semantic_names ss
      | [] => if epmc.authorString ≠ "" then [epmc.authorString] else []

/-- `_extract_journal` (lines 714-735). -/
def extract_journal (cr : CrossRef) (ss : SemanticScholar) (epmc : EuropePMC) :
    Option String :=
  match cr.container_title with
  | j :: _ =>
    let parts := [j] ++ (if cr.volume ≠ "" then ["vol. " ++ cr.volume] else [])
      ++ (if cr.issue ≠ "" then ["no. " ++ cr.issue] else [])
      ++ (if cr.page ≠ "" then ["pp. " ++ cr.page] else [])
    some (String.intercalate ", " parts)
  | [] =>
    match ss.journal with
    | some jn =>
      match jn.name with
      | some n => if n ≠ "" then some n else epmc.journalTitle
      | none => epmc.journalTitle
    | none => epmc.journalTitle

/-- Python `f"{n:02d}"`: zero-pad to width two. -/
def pad02 (n : Int) : String :=
  let s := toString n
  if s.length < 2 then "0" ++ s else s

/-- Lines 744-747: `YYYY-MM-DD` for three or more date components, bare
year for one or two.  The empty case is unreachable because the caller
checked `dp[0]` for truthiness. -/
def fmt_date_parts : List Int → String
  | y :: m :: d :: _ => toString y ++ "-" ++ pad02 m ++ "-" ++ pad02 d
  | y :: _ => toString y
  | [] => ""

/-- The loop of lines 740-742: each key's value is
`cr.get(key, {}).get("date-parts", [[]])`; the first one that is non-empty
with a non-empty first entry is returned. -/
def find_date_parts : List (Option (List (List Int))) → Option (List Int)
  | [] => none
  | dpOpt :: rest =>
    match dpOpt.getD [[]] with
    | (p :: ps) :: _ => some (p :: ps)
    | _ => find_date_parts rest

/-- Lines 752-755: OpenAlex's publication year (`0` is falsy in Python)
and the final fall-through to Europe PMC's year string. -/
def oa_or_epmc_date (oa : OpenAlex) (epmc : EuropePMC) : Option String :=
  match oa.publication_year with
  | some y => if y ≠ 0 then some (toString y) else epmc.pubYear
  | none => epmc.pubYear

/-- `_extract_date` (lines 738-755): CrossRef date keys in fixed order,
then Semantic Scholar's date string, then OpenAlex's year, then Europe
PMC's year. -/
def extract_date (cr : CrossRef) (ss : SemanticScholar) (oa : OpenAlex)
    (epmc : EuropePMC) : Option String :=
  match find_date_parts
      [cr.published_print, cr.published_online, cr.issued, cr.created] with
  | some parts => some (fmt_date_parts parts)
  | none =>
    match ss.publicationDate with
    | some d =>
      if d ≠ "" then some d else oa_or_epmc_date oa epmc
    | none => oa_or_epmc_date oa epmc

/-- Lines 779-783: the loop over Europe PMC full-text URLs with `break`
on the first PDF-styled one. -/
def first_pdf_url (urls : List EPMCUrl) : Option EPMCUrl :=
  urls.find? (fun u => decide (u.documentStyle = some "pdf"))

/-- Lines 786-791: the loop over CrossRef licenses with `break` on the
first URL containing the Creative-Commons domain. -/
def first_cc_license (ls : List CRLicense) : Option CRLicense :=
  ls.find? (fun lic => decide ("creativecommons.org".data <:+: lic.URL.data))

/-- `_extract_oa_links` (lines 758-793).  Each `links.append(...)` under a
condition becomes appending a zero-or-one element list, in the source's
order: PMC, Semantic Scholar PDF, OpenAlex, Europe PMC PDF, CrossRef
license.  The full `report` is consulted only for `pmc_id`. -/
def extract_oa_links (cr : CrossRef) (oa : OpenAlex) (ss : SemanticScholar)
    (epmc : EuropePMC) (pmc_id : Option String) : List (String × String) :=
  let links : List (String × String) := []
  let links := links ++
    (match pmc_id with
      | some p =>
        if p ≠ "" then
          [("PubMed Central", "https://www.ncbi.nlm.nih.gov/pmc/articles/PMC" ++ p ++ "/")]
        else []
      | none => [])
  let links := links ++
    (match ss.openAccessPdf with
      | some pdf =>
        match pdf.url with
        | some u => if u ≠ "" then [("Semantic Scholar PDF", u)] else []
        | none => []
      | none => [])
  let links := links ++
    (match oa.open_access with
      | some acc =>
        match acc.oa_url with
        | some u =>
          if u ≠ "" then [("OpenAlex (" ++ acc.oa_status.getD "open" ++ ")", u)] else []
        | none => []
      | none => [])
  let links := links ++
    (if epmc.isOpenAccess = some "Y" then
      match first_pdf_url ((epmc.fullTextUrlList.map (fun f => f.fullTextUrl)).getD []) with
      | some u => [("Europe PMC PDF", u.url)]
      | none => []
    else [])
  let links := links ++
    (match first_cc_license cr.license with
      | some lic => [("License", lic.URL)]
      | none => [])
  links

/-- One pass of the update loop body (lines 808-815): at most one notice
per update, chosen by the `if`/`elif` chain over the lowercased label. -/
def noticeOf (u : CRUpdate) : Option String :=
  let label := u.label.data.map Char.toLower
  if "retract".data <:+: label then some "RETRACTED"
  else if "correction".data <:+: label ∨ "erratum".data <:+: label then
    some "Has correction/erratum"
  else if "concern".data <:+: label then some "Expression of concern"
  else none

/-- `_extract_notices` (lines 796-817): relation-based notices, then the
update-history notices, then `list(set(notices))`.  The set conversion is
modelled by `List.dedup`; Python leaves the resulting order unspecified,
and only order-insensitive properties are proved about it. -/
def extract_notices (cr : CrossRef) : List String :=
  let notices :=
    (if cr.relation.is_retracted_by ≠ [] then ["RETRACTED"] else []) ++
    (if cr.relation.has_expression_of_concern ≠ [] then ["Expression of concern"] else []) ++
    (cr.update_to ++ cr.updated_by).filterMap noticeOf
  notices.dedup

/-! ## Renderer formatting helpers (scholar.py lines 467-678) -/

/-- Insert `,` after every third digit of a reversed digit list. -/
def insertCommas : List Char → List Char
  | a :: b :: c :: d :: rest => a :: b :: c :: ',' :: insertCommas (d :: rest)
  | l => l

/-- Python `f"{n:,}"`: thousands separators. -/
def commafy (n : Int) : String :=
  (if n < 0 then "-" else "") ++
    String.mk ((insertCommas (toString n.natAbs).data.reverse).reverse)

/-- Python `f"{score:.0%}"` on a concept score.  Python rounds the float
half-to-even; this model rounds half away from zero, a difference no
verified claim depends on (the branch is exercised only with non-empty
concept lists). -/
def fmtPercent (q : Rat) : String := toString (round (q * 100)) ++ "%"

/-- Scanner for `re.sub(r"<[^>]+>", "", s)` (line 535).  The first
argument is `none` outside a candidate tag; inside one it holds the
consumed characters in reverse (starting with the opening `<`).  A
pattern occurrence `<`, one-or-more non-`>` characters, `>` is dropped;
a lone `<>` pair or a `<` with no later `>` is kept verbatim, exactly as
Python's `re.sub` leaves unmatched text in place. -/
def stripTagsGo : Option (List Char) → List Char → List Char
  | none, [] => []
  | none, c :: rest =>
    if c = '<' then stripTagsGo (some [c]) rest else c :: stripTagsGo none rest
  | some buf, [] => buf.reverse
  | some buf, c :: rest =>
    if c = '>' then
      if buf.length = 1 then buf.reverse ++ '>' :: stripTagsGo none rest
      else stripTagsGo none rest
    else stripTagsGo (some (c :: buf)) rest

/-- Python `re.sub(r"<[^>]+>", "", s)` (line 535). -/
def stripTags (l : List Char) : List Char := stripTagsGo none l

/-- Scanner for `re.sub(r"\s+", " ", s)` (line 536, ASCII whitespace):
each maximal whitespace run becomes a single space; the flag records
whether the previous character was whitespace. -/
def collapseWsGo : Bool → List Char → List Char
  | _, [] => []
  | prevSpace, c :: rest =>
    if isSpaceChar c then
      if prevSpace then collapseWsGo true rest else ' ' :: collapseWsGo true rest
    else c :: collapseWsGo false rest

/-- Python `re.sub(r"\s+", " ", s)` (line 536). -/
def collapseWs (l : List Char) : List Char := collapseWsGo false l

/-- Lines 534-536: strip HTML tags, collapse whitespace, strip ends. -/
def clean_abstract (s : String) : String :=
  pyStrip (String.mk (collapseWs (stripTags s.data)))

/-- One bullet of the Recommended Papers section (lines 656-673). -/
def recLine (r : Rec) : String :=
  let r_title := r.title.getD "Untitled"
  let author_str :=
    match r.authors with
    | [] => ""
    | [a] => a.name.getD ""
    | a :: _ :: _ => (a.name.getD "") ++ " et al."
  let parts := [r_title] ++ (if author_str ≠ "" then [author_str] else []) ++
    (match r.year with
      | some y => if y ≠ 0 then [toString y] else []
      | none => []) ++
    (if r.citationCount ≠ 0 then [commafy r.citationCount ++ " citations"] else [])
  "- " ++ String.intercalate " — " parts

/-- `to_markdown` (lines 467-678) as the list of emitted lines, in the
source's order.  The generation date of the footer (`datetime.now`, line
677) is passed in as `today`. -/
def to_markdown_lines (report : Report) (today : String) : List String :=
  let doi := report.doi
  let cr := crOf report.sources
  let oa := oaOf report.sources
  let ss := ssOf report.sources
  let epmc := epmcOf report.sources
  let pp := ppOf report.sources
  let title := reconcile_title cr ss oa epmc doi
  let lines := ["# " ++ title, ""]
  let lines := lines ++ ["**DOI:** [" ++ doi ++ "](https://doi.org/" ++ doi ++ ")"]
  let authors := extract_authors cr oa ss epmc
  let lines := lines ++
    (if authors ≠ [] then
      ["**Authors:** " ++ String.intercalate ", " (authors.take 10) ++
        (if authors.length > 10 then " *et al.*" else "")]
    else [])
  let lines := lines ++
    (match extract_journal cr ss epmc with
      | some j => if j ≠ "" then ["**Journal:** " ++ j] else []
      | none => [])
  let lines := lines ++
    (match extract_date cr ss oa epmc with
      | some d => if d ≠ "" then ["**Published:** " ++ d] else []
      | none => [])
  let ssPt : Option String :=
    match ss.publicationTypes with
    | some (t :: _) => some t
    | _ => none
  let lines := lines ++
    (match pyOrS cr.type ssPt with
      | some p => if p ≠ "" then ["**Type:** " ++ p] else []
      | none => [])
  let lines := lines ++
    (match report.pmid with
      | some p =>
        if p ≠ "" then
          ["**PubMed:** [" ++ p ++ "](https://pubmed.ncbi.nlm.nih.gov/" ++ p ++ "/)"]
        else []
      | none => [])
  let lines := lines ++
    (match report.pmc_id with
      | some c =>
        if c ≠ "" then
          ["**PMC:** [PMC" ++ c ++ "](https://www.ncbi.nlm.nih.gov/pmc/articles/PMC" ++ c ++ "/)"]
        else []
      | none => [])
  let lines := lines ++ ["", "---", ""]
  let lines := lines ++
    (match ss.tldr with
      | some td =>
        match td.text with
        | some t => if t ≠ "" then ["## TL;DR", "", "*" ++ t ++ "*", ""] else []
        | none => []
      | none => [])
  let lines := lines ++
    (match pyOrS cr.abstract epmc.abstractText with
      | some a => if a ≠ "" then ["## Abstract", "", clean_abstract a, ""] else []
      | none => [])
  let lines := lines ++
    ["## Citation Counts", "", "| Source | Citations | Notes |", "|--------|-----------|-------|"]
  let lines := lines ++
    (match cr.is_referenced_by_count with
      | some n => ["| CrossRef | " ++ commafy n ++ " | - |"]
      | none => [])
  let lines := lines ++
    (match oa.cited_by_count with
      | some n =>
        let percentile := (oa.cited_by_percentile_year.map (fun pc => pc.min)).getD none
        let note :=
          match percentile with
          | some p => toString p ++ "th percentile for year"
          | none => "-"
        ["| OpenAlex | " ++ commafy n ++ " | " ++ note ++ " |"]
      | none => [])
  let lines := lines ++
    (match ss.citationCount with
      | some n =>
        let influential := ss.influentialCitationCount.getD 0
        let note := if influential ≠ 0 then toString influential ++ " influential" else "-"
        ["| Semantic Scholar | " ++ commafy n ++ " | " ++ note ++ " |"]
      | none => [])
  let lines := lines ++
    (match epmc.citedByCount with
      | some n => ["| Europe PMC | " ++ commafy n ++ " | - |"]
      | none => [])
  let lines := lines ++ [""]
  let oa_urls := extract_oa_links cr oa ss epmc report.pmc_id
  let lines := lines ++
    (if oa_urls ≠ [] then
      ["## Open Access", ""] ++
        oa_urls.map (fun lu => "- [" ++ lu.1 ++ "](" ++ lu.2 ++ ")") ++ [""]
    else [])
  let notices := extract_notices cr
  let lines := lines ++
    (if notices ≠ [] then
      ["## Editorial Notices", ""] ++ notices.map (fun n => "- **" ++ n ++ "**") ++ [""]
    else [])
  let lines := lines ++
    (match pp with
      | some p =>
        if p.total_comments > 0 then
          let user_str :=
            match p.users with
            | PPUsers.num u => toString u ++ " user" ++ (if u ≠ 1 then "s" else "")
            | PPUsers.str s => if s ≠ "" then s ++ " users" else ""
          let url := p.url.getD ("https://pubpeer.com/search?q=" ++ doi)
          let comment_text := "**" ++ toString p.total_comments ++ " comment" ++
            (if p.total_comments ≠ 1 then "s" else "") ++ "**" ++
            (if user_str ≠ "" then " from " ++ user_str else "")
          ["## PubPeer", "", comment_text ++ " — [View on PubPeer](" ++ url ++ ")", ""]
        else []
      | none => [])
  let hyp := report.hypothesis_annotations
  let lines := lines ++
    (if hyp > 0 then
      ["## Hypothesis Annotations", "",
        "**" ++ toString hyp ++ " annotation" ++ (if hyp ≠ 1 then "s" else "") ++
          "** — [View](https://hypothes.is/search?q=doi%3A" ++ doi ++ ")", ""]
    else [])
  let lines := lines ++
    (match oa.concepts with
      | [] => []
      | cs =>
        match (cs.filter (fun c => decide (c.score.getD 0 > (3 : Rat)/10))).take 8 with
        | [] => []
        | top =>
          ["## Topics", ""] ++
            top.map (fun c =>
              "- " ++ c.display_name.getD "?" ++ " (" ++ fmtPercent (c.score.getD 0) ++ ")") ++
            [""])
  let lines := lines ++
    (match cr.funder with
      | [] => []
      | fs =>
        ["## Funding", ""] ++
          fs.map (fun f =>
            let name := f.name.getD "Unknown"
            match f.award with
            | [] => "- " ++ name
            | aws => "- " ++ name ++ " (grants: " ++ String.intercalate ", " aws ++ ")") ++
          [""])
  let lines := lines ++
    (match cr.reference with
      | [] => []
      | refs =>
        let ref_with_doi :=
          (refs.filter (fun r =>
            match r.DOI with
            | some d => decide (d ≠ "")
            | none => false)).length
        ["## References", "",
          "**" ++ toString refs.length ++ " references** (" ++ toString ref_with_doi ++
            " with DOI)", ""])
  let lines := lines ++
    (match report.recommendations with
      | [] => []
      | recs => ["## Recommended Papers", ""] ++ (recs.take 5).map recLine ++ [""])
  lines ++ ["---", "*Generated by Lazy Scholar CLI on " ++ today ++ "*"]

/-- `to_markdown`: the joined document (line 678). -/
def to_markdown (report : Report) (today : String) : String :=
  String.intercalate "\n" (to_markdown_lines report today)

/-- The characters after the first `/` of `l` (empty when there is no
slash or nothing follows it). -/
def tailAfterSlash (l : List Char) : List Char :=
  (l.dropWhile (fun c => decide (c ≠ '/'))).drop 1

/-! ## C8 spec-side link decomposition

These five definitions follow the wording of spec section 4.6 (open-access
links): "an accumulation (not a priority chain) — PubMed Central link (if
a PMC id was resolved), Semantic Scholar's open-access PDF, OpenAlex's
open-access URL with its status label, Europe PMC's PDF-typed full-text
URL (only when its open-access flag is exactly "Y"), and the first
Creative-Commons-domain license URL from CrossRef — each present source
contributes at most one link, concatenated in that fixed order." -/

/-- Spec side: the PubMed Central link, if a PMC id was resolved. -/
def spec_pmc_link (pmc_id : Option String) : List (String × String) :=
  match pmc_id with
  | some p =>
    if p ≠ "" then
      [("PubMed Central", "https://www.ncbi.nlm.nih.gov/pmc/articles/PMC" ++ p ++ "/")]
    else []
  | none => []

/-- Spec side: Semantic Scholar's open-access PDF link. -/
def spec_ss_link (ss : SemanticScholar) : List (String × String) :=
  match ss.openAccessPdf with
  | some pdf =>
    match pdf.url with
    | some u => if u ≠ "" then [("Semantic Scholar PDF", u)] else []
    | none => []
  | none => []

/-- Spec side: OpenAlex's open-access URL with its status label. -/
def spec_oa_link (oa : OpenAlex) : List (String × String) :=
  match oa.open_access with
  | some acc =>
    match acc.oa_url with
    | some u =>
      if u ≠ "" then [("OpenAlex (" ++ acc.oa_status.getD "open" ++ ")", u)] else []
    | none => []
  | none => []

/-- Spec side: Europe PMC's first PDF-typed full-text URL, only when the
open-access flag is exactly "Y". -/
def spec_epmc_link (epmc : EuropePMC) : List (String × String) :=
  if epmc.isOpenAccess = some "Y" then
    match first_pdf_url ((epmc.fullTextUrlList.map (fun f => f.fullTextUrl)).getD []) with
    | some u => [("Europe PMC PDF", u.url)]
    | none => []
  else []

/-- Spec side: the first Creative-Commons-domain license URL from
CrossRef. -/
def spec_cc_link (cr : CrossRef) : List (String × String) :=
  match first_cc_license cr.license with
  | some lic => [("License", lic.URL)]
  | none => []

/-- An aggregate report holding only the identifier and a CrossRef record
that carries nothing but a title: no other source records, no PubMed/PMC
ids, zero Hypothesis annotations, no recommendations. -/
def title_only_report (doi t : String) : Report :=
  { doi := doi, sources := [("crossref", SrcVal.crossref { title := some [t] })] }

/-! ## Claim theorems -/

/-- C3 counterexample: a pruned ledger already at the hourly ceiling whose
most recent timestamp is 2 seconds old makes the gate sleep 3 seconds and
then terminate with the quota error, contradicting the claim that every
such ledger state terminates without sleeping. -/
theorem rate_limit_sleeps_before_quota_exit :
    check_rate_limit 10000 [9998, 9990, 9985, 9980, 9975, 9970, 9965, 9960, 9955, 9950] =
      { wait := some 3, quotaExceeded := true, retryAfter := some 3550 } ∧
    (some (3 : Rat)) ≠ (none : Option Rat) := by
  refine ⟨?_, by simp⟩
  norm_num [check_rate_limit, pruneWindow, pyMax, pyMin, List.filter, List.foldl,
    max_def, min_def, MIN_INTERVAL_SECONDS, MAX_REQUESTS_PER_HOUR]

/-- C3 amended: the quota check always terminates the invocation when the
pruned ledger is at or above the ceiling (and never below it), but the
interval check runs first, so the gate additionally sleeps exactly the
remaining interval time whenever the most recent pruned timestamp is
younger than the minimum interval — also on the quota-exceeded path. -/
theorem check_rate_limit_behavior (now : Rat) (stored : List Rat) :
    (MAX_REQUESTS_PER_HOUR ≤ (pruneWindow now stored).length →
      (check_rate_limit now stored).quotaExceeded = true) ∧
    ((pruneWindow now stored).length < MAX_REQUESTS_PER_HOUR →
      (check_rate_limit now stored).quotaExceeded = false) ∧
    (∀ m, pyMax (pruneWindow now stored) = some m → now - m < MIN_INTERVAL_SECONDS →
      (check_rate_limit now stored).wait = some (MIN_INTERVAL_SECONDS - (now - m))) ∧
    (∀ m, pyMax (pruneWindow now stored) = some m → MIN_INTERVAL_SECONDS ≤ now - m →
      (check_rate_limit now stored).wait = none) ∧
    (pyMax (pruneWindow now stored) = none → (check_rate_limit now stored).wait = none) := by
  refine ⟨fun h => ?_, fun h => ?_, fun m hm hlt => ?_, fun m hm hle => ?_, fun hm => ?_⟩
  · simp only [check_rate_limit]
    rw [if_pos h]
  · simp only [check_rate_limit]
    rw [if_neg (by omega)]
  · simp only [check_rate_limit, hm]
    split <;> simp [if_pos hlt]
  · simp only [check_rate_limit, hm]
    split <;> simp [if_neg (not_lt.mpr hle)]
  · simp only [check_rate_limit, hm]
    split <;> simp

/-- C3 witness: a ledger with one timestamp 2 seconds old and the
5-second minimum interval sleeps exactly 3 seconds and proceeds. -/
theorem check_rate_limit_behavior_witness :
    (check_rate_limit 100 [98]).wait = some 3 ∧
    (check_rate_limit 100 [98]).quotaExceeded = false := by
  constructor
  · have h := (check_rate_limit_behavior 100 [98]).2.2.1 98
      (by norm_num [pyMax, pruneWindow, List.filter])
      (by norm_num [MIN_INTERVAL_SECONDS])
    rw [h]
    norm_num [MIN_INTERVAL_SECONDS]
  · exact (check_rate_limit_behavior 100 [98]).2.1
      (by norm_num [pruneWindow, List.filter, MAX_REQUESTS_PER_HOUR])

/-- C4 counterexample: a 500 response is returned as "no data" at once —
no sleep, no retry (the following successful response is never consumed) —
and a run of exceptions is retried twice (two fixed sleeps), not once. -/
theorem transport_retry_counterexample :
    pyGet [HttpEvent.failure 500, HttpEvent.success "data"] = (none, []) ∧
    pyGet [HttpEvent.raised, HttpEvent.raised, HttpEvent.raised] =
      (none, [SleepTag.fixed2, SleepTag.fixed2]) := by
  exact ⟨rfl, rfl⟩

/-- C4 amended: an OK response returns its parsed body; HTTP 429 is
retried with a randomized bounded backoff up to the fixed budget of two
retries; any other non-OK status returns the "no data" value immediately,
with no sleep and no retry; a transport or parsing exception is retried
with a fixed 2-second sleep while budget remains (so up to twice); and the
wrapper, being a total function, never raises.  `_post` shares the same
loop. -/
theorem transport_retry_behavior (b : String) (c : Nat) (es : List HttpEvent)
    (hc : c ≠ 429) :
    pyGet (HttpEvent.success b :: es) = (some b, []) ∧
    pyGet (HttpEvent.failure c :: es) = (none, []) ∧
    pyGet (HttpEvent.failure 429 :: HttpEvent.success b :: es) =
      (some b, [SleepTag.backoff429]) ∧
    pyGet (HttpEvent.failure 429 :: HttpEvent.failure 429 :: HttpEvent.failure 429 :: es) =
      (none, [SleepTag.backoff429, SleepTag.backoff429]) ∧
    pyGet (HttpEvent.raised :: HttpEvent.success b :: es) = (some b, [SleepTag.fixed2]) ∧
    pyGet (HttpEvent.raised :: HttpEvent.raised :: HttpEvent.raised :: es) =
      (none, [SleepTag.fixed2, SleepTag.fixed2]) ∧
    pyPost (HttpEvent.failure c :: es) = (none, []) := by
  refine ⟨rfl, ?_, rfl, rfl, rfl, rfl, ?_⟩ <;>
    simp [pyGet, pyPost, requestLoop, hc]

/-- C4 witness: a single 500 response yields "no data" with no sleep. -/
theorem transport_retry_behavior_witness :
    pyGet [HttpEvent.failure 500] = (none, []) :=
  (transport_retry_behavior "x" 500 [] (by decide)).2.1

/-- C7 confirmed: the reconciled title follows the priority CrossRef →
Semantic Scholar → OpenAlex → Europe PMC → the identifier.  When both
CrossRef and Semantic Scholar supply a non-empty title (CrossRef's being
the first element of its title list), CrossRef's wins; when CrossRef
supplies none, Semantic Scholar's non-empty title wins regardless of the
later sources; when no source supplies one, the identifier is used. -/
theorem title_priority_chain (cr : CrossRef) (ss : SemanticScholar) (oa : OpenAlex)
    (epmc : EuropePMC) (doi : String) :
    (∀ t rest u, cr.title = some (t :: rest) → t ≠ "" → ss.title = some u → u ≠ "" →
      reconcile_title cr ss oa epmc doi = t) ∧
    (∀ u, (cr_first_title cr = none ∨ cr_first_title cr = some "") →
      ss.title = some u → u ≠ "" → reconcile_title cr ss oa epmc doi = u) ∧
    ((cr_first_title cr = none ∨ cr_first_title cr = some "") →
      (ss.title = none ∨ ss.title = some "") →
      (oa.title = none ∨ oa.title = some "") →
      (epmc.title = none ∨ epmc.title = some "") →
      reconcile_title cr ss oa epmc doi = doi) := by
  refine ⟨fun t rest u hcr ht hss hu => ?_, fun u hcr hss hu => ?_,
    fun hcr hss hoa hepmc => ?_⟩
  · simp [reconcile_title, cr_first_title, hcr, pyOrS, ht]
  · rcases hcr with h | h <;>
      simp [reconcile_title, h, pyOrS, hss, hu]
  · rcases hcr with h | h <;> rcases hss with h2 | h2 <;> rcases hoa with h3 | h3 <;>
      rcases hepmc with h4 | h4 <;>
      simp [reconcile_title, h, h2, h3, h4, pyOrS]

/-- C7 witness: with both CrossRef and Semantic Scholar titles present
the CrossRef one is reconciled. -/
theorem title_priority_chain_witness :
    reconcile_title { title := some ["CR title"] } { title := some "SS title" } {} {}
      "10.1/x" = "CR title" :=
  (title_priority_chain { title := some ["CR title"] } { title := some "SS title" } {} {}
    "10.1/x").1 "CR title" [] "SS title" rfl (by decide) rfl (by decide)

/-- C10 confirmed: when the first usable `date-parts` entry (scanned over
published-print, published-online, issued, created in that order) has
exactly two components, the reconciled date is the bare year string — the
same output as for a one-component entry — and the later sources are
never consulted (the result does not depend on them). -/
theorem date_two_components_year_only
    (cr cr2 : CrossRef) (ss ss2 : SemanticScholar) (oa oa2 : OpenAlex)
    (epmc epmc2 : EuropePMC) (y m : Int)
    (h2 : find_date_parts
      [cr.published_print, cr.published_online, cr.issued, cr.created] = some [y, m])
    (h1 : find_date_parts
      [cr2.published_print, cr2.published_online, cr2.issued, cr2.created] = some [y]) :
    extract_date cr ss oa epmc = some (toString y) ∧
    extract_date cr2 ss2 oa2 epmc2 = some (toString y) := by
  unfold extract_date
  rw [h2, h1]
  exact ⟨rfl, rfl⟩

/-- C10 witness: a two-component published-print entry yields the bare
year. -/
theorem date_two_components_year_only_witness :
    extract_date { published_print := some [[2020, 5]] } {} {} {} = some "2020" ∧
    extract_date { issued := some [[2020]] } {} {} {} = some "2020" := by
  have h := date_two_components_year_only
    { published_print := some [[2020, 5]] } { issued := some [[2020]] }
    {} {} {} {} {} {} 2020 5 (by decide) (by decide)
  exact ⟨h.1, h.2⟩

/-- C6 counterexample: CrossRef absent, OpenAlex present with one
authorship whose display name is empty, Semantic Scholar present with the
author "Xavier Yu".  The first source yielding a non-empty name is
Semantic Scholar, but the code stops at OpenAlex (whose authorship list
is non-empty) and returns the empty list. -/
theorem authors_fallback_counterexample :
    extract_authors {} { authorships := [{ author := some { display_name := "" } }] }
      { authors := [{ name := "Xavier Yu" }] } {} = [] ∧
    semantic_names { authors := [{ name := "Xavier Yu" }] } = ["Xavier Yu"] := by
  exact ⟨rfl, rfl⟩

/-- C6 amended: author reconciliation tries CrossRef, OpenAlex, Semantic
Scholar, then Europe PMC.  The CrossRef stage is skipped when it yields no
non-empty joined name, but the OpenAlex and Semantic Scholar stages win as
soon as their entry lists are non-empty — even when every name in them is
empty, in which case the result is the empty list and later sources are
not consulted.  Europe PMC's single pre-joined string becomes a
one-element list. -/
theorem authors_priority_behavior (cr : CrossRef) (oa : OpenAlex)
    (ss : SemanticScholar) (epmc : EuropePMC) :
    (crossref_names cr ≠ [] → extract_authors cr oa ss epmc = crossref_names cr) ∧
    (crossref_names cr = [] → oa.authorships ≠ [] →
      extract_authors cr oa ss epmc = openalex_names oa) ∧
    (crossref_names cr = [] → oa.authorships = [] → ss.authors ≠ [] →
      extract_authors cr oa ss epmc = semantic_names ss) ∧
    (crossref_names cr = [] → oa.authorships = [] → ss.authors = [] →
      epmc.authorString ≠ "" → extract_authors cr oa ss epmc = [epmc.authorString]) ∧
    (crossref_names cr = [] → oa.authorships = [] → ss.authors = [] →
      epmc.authorString = "" → extract_authors cr oa ss epmc = []) := by
  refine ⟨fun h1 => ?_, fun h1 h2 => ?_, fun h1 h2 h3 => ?_,
    fun h1 h2 h3 h4 => ?_, fun h1 h2 h3 h4 => ?_⟩
  · simp [extract_authors, h1]
  · rcases List.exists_cons_of_ne_nil h2 with ⟨a, t, ha⟩
    simp [extract_authors, h1, ha]
  · rcases List.exists_cons_of_ne_nil h3 with ⟨a, t, ha⟩
    simp [extract_authors, h1, h2, ha]
  · simp [extract_authors, h1, h2, h3, h4]
  · simp [extract_authors, h1, h2, h3, h4]

/-- C6 witness: CrossRef structured names win when present. -/
theorem authors_priority_behavior_witness :
    extract_authors { author := [{ given := "Ada", family := "Lovelace" }] } {} {} {} =
      ["Ada Lovelace"] := by
  have h := (authors_priority_behavior
    { author := [{ given := "Ada", family := "Lovelace" }] } {} {} {}).1 (by decide)
  rw [h]
  rfl

/-- C9 counterexample: an update labelled "Retraction of erratum"
contains "erratum" (case-insensitively) but yields the RETRACTED notice
and no "Has correction/erratum" notice at all, because "retract" is
checked first in the `if`/`elif` chain. -/
theorem erratum_notice_counterexample :
    extract_notices { update_to := [{ label := "Retraction of erratum" }] } =
      ["RETRACTED"] ∧
    ("erratum".data <:+: "Retraction of erratum".data.map Char.toLower) ∧
    (extract_notices { update_to := [{ label := "Retraction of erratum" }] }).count
      "Has correction/erratum" = 0 := by
  refine ⟨rfl, by decide, rfl⟩

/-- C9 amended: the notice list never contains duplicates, and whenever
the update history holds at least one update whose lowercased label
contains "erratum" but not "retract", exactly one "Has correction/erratum"
notice is produced, however many such updates there are. -/
theorem notices_dedup_behavior (cr : CrossRef) :
    (extract_notices cr).Nodup ∧
    ((∃ u ∈ cr.update_to ++ cr.updated_by,
        ("erratum".data <:+: u.label.data.map Char.toLower) ∧
        ¬ ("retract".data <:+: u.label.data.map Char.toLower)) →
      (extract_notices cr).count "Has correction/erratum" = 1) := by
  constructor
  · exact List.nodup_dedup _
  · rintro ⟨u, hu, he, hr⟩
    have hn : noticeOf u = some "Has correction/erratum" := by
      unfold noticeOf
      rw [if_neg hr, if_pos (Or.inr he)]
    have hmem : "Has correction/erratum" ∈
        (if cr.relation.is_retracted_by ≠ [] then ["RETRACTED"] else []) ++
        (if cr.relation.has_expression_of_concern ≠ [] then
          ["Expression of concern"] else []) ++
        (cr.update_to ++ cr.updated_by).filterMap noticeOf := by
      refine List.mem_append.mpr (Or.inr ?_)
      exact List.mem_filterMap.mpr ⟨u, hu, hn⟩
    unfold extract_notices
    rw [List.count_dedup]
    simp only [List.append_assoc] at hmem ⊢
    rw [if_pos hmem]

/-- C9 witness: two distinct erratum-labelled updates yield exactly one
"Has correction/erratum" notice. -/
theorem notices_dedup_behavior_witness :
    (extract_notices
      { update_to := [{ label := "Erratum" }, { label := "Published erratum" }] }).count
      "Has correction/erratum" = 1 ∧
    (extract_notices
      { update_to := [{ label := "Erratum" }, { label := "Published erratum" }] }).Nodup := by
  have h := notices_dedup_behavior
    { update_to := [{ label := "Erratum" }, { label := "Published erratum" }] }
  refine ⟨h.2 ?_, h.1⟩
  refine ⟨{ label := "Erratum" }, by simp, by decide, by decide⟩

/-! ## C8 infrastructure: lookup is insensitive to mapping order -/

theorem lookupSrc_cons (p : String × SrcVal) (rest : List (String × SrcVal)) (k : String) :
    lookupSrc (p :: rest) k = if p.1 = k then some p.2 else lookupSrc rest k := by
  rcases p with ⟨a, b⟩
  rfl

/-- Looking a key up in the sources mapping depends only on the mapping,
not on the order of its entries, as long as keys are not duplicated. -/
theorem lookupSrc_perm {l₁ l₂ : List (String × SrcVal)} (hp : l₁.Perm l₂)
    (hnd : (l₁.map Prod.fst).Nodup) (k : String) :
    lookupSrc l₁ k = lookupSrc l₂ k := by
  induction hp with
  | nil => rfl
  | cons a t ih =>
    rw [List.map_cons, List.nodup_cons] at hnd
    rw [lookupSrc_cons, lookupSrc_cons, ih hnd.2]
  | swap x y l =>
    rw [List.map_cons, List.map_cons, List.nodup_cons, List.nodup_cons] at hnd
    have hxy : y.1 ≠ x.1 := by
      intro h
      exact hnd.1 (h ▸ List.mem_cons_self _ _)
    rw [lookupSrc_cons, lookupSrc_cons, lookupSrc_cons, lookupSrc_cons]
    by_cases h1 : y.1 = k
    · rw [if_pos h1, if_neg (fun h2 => hxy (h1.trans h2.symm)), if_pos h1]
    · rw [if_neg h1, if_neg h1]
  | trans h12 _ ih12 ih23 =>
    have hnd2 : (_ : List (String × SrcVal)).map Prod.fst |>.Nodup :=
      ((h12.map Prod.fst).nodup_iff).mp hnd
    rw [ih12 hnd, ih23 hnd2]

/-- C8 confirmed: the open-access link list is the concatenation, in the
fixed order PMC → Semantic Scholar PDF → OpenAlex → Europe PMC PDF →
CrossRef license, of per-source contributions of at most one link each;
the Europe PMC piece is non-empty only when its flag is exactly "Y"; the
CrossRef piece carries the first Creative-Commons license URL; and the
result is unchanged under any reordering of the sources mapping. -/
theorem oa_links_accumulation (s₁ s₂ : List (String × SrcVal)) (pmc_id : Option String)
    (cr : CrossRef) (oa : OpenAlex) (ss : SemanticScholar) (epmc : EuropePMC)
    (hnd : (s₁.map Prod.fst).Nodup) (hp : s₁.Perm s₂) :
    extract_oa_links (crOf s₁) (oaOf s₁) (ssOf s₁) (epmcOf s₁) pmc_id =
      extract_oa_links (crOf s₂) (oaOf s₂) (ssOf s₂) (epmcOf s₂) pmc_id ∧
    extract_oa_links cr oa ss epmc pmc_id =
      spec_pmc_link pmc_id ++ spec_ss_link ss ++ spec_oa_link oa ++
        spec_epmc_link epmc ++ spec_cc_link cr ∧
    (spec_pmc_link pmc_id).length ≤ 1 ∧
    (spec_ss_link ss).length ≤ 1 ∧
    (spec_oa_link oa).length ≤ 1 ∧
    (spec_epmc_link epmc).length ≤ 1 ∧
    (spec_cc_link cr).length ≤ 1 ∧
    (spec_epmc_link epmc ≠ [] → epmc.isOpenAccess = some "Y") ∧
    (∀ u, ("License", u) ∈ spec_cc_link cr →
      ∃ lic, first_cc_license cr.license = some lic ∧ lic.URL = u) := by
  have hcr : crOf s₁ = crOf s₂ := by unfold crOf; rw [lookupSrc_perm hp hnd]
  have hoa : oaOf s₁ = oaOf s₂ := by unfold oaOf; rw [lookupSrc_perm hp hnd]
  have hss : ssOf s₁ = ssOf s₂ := by unfold ssOf; rw [lookupSrc_perm hp hnd]
  have hepmc : epmcOf s₁ = epmcOf s₂ := by unfold epmcOf; rw [lookupSrc_perm hp hnd]
  refine ⟨by rw [hcr, hoa, hss, hepmc], ?_, ?_, ?_, ?_, ?_, ?_, ?_, ?_⟩
  · simp only [extract_oa_links, spec_pmc_link, spec_ss_link, spec_oa_link,
      spec_epmc_link, spec_cc_link, List.nil_append, List.append_assoc]
  · unfold spec_pmc_link
    split <;> (try split_ifs) <;> simp
  · unfold spec_ss_link
    split <;> (try split) <;> (try split_ifs) <;> simp
  · unfold spec_oa_link
    split <;> (try split) <;> (try split_ifs) <;> simp
  · unfold spec_epmc_link
    split_ifs <;> try simp
    split <;> simp
  · unfold spec_cc_link
    split <;> simp
  · unfold spec_epmc_link
    split_ifs with h
    · exact fun _ => h
    · simp
  · unfold spec_cc_link
    intro u hu
    split at hu
    · rename_i lic hl
      simp only [List.mem_singleton, Prod.mk.injEq] at hu
      exact ⟨lic, hl, hu.2.symm⟩
    · simp at hu

/-- C8 witness: with PMC, Semantic Scholar and Europe PMC contributing,
the links come out in the fixed order, one per source, independent of the
order of the two source entries. -/
theorem oa_links_accumulation_witness :
    extract_oa_links {} {}
      { openAccessPdf := some { url := some "https://pdfs.org/a.pdf" } }
      { isOpenAccess := some "Y",
        fullTextUrlList := some
          { fullTextUrl := [{ documentStyle := some "pdf", url := "https://epmc.org/a.pdf" }] } }
      (some "777") =
      [("PubMed Central", "https://www.ncbi.nlm.nih.gov/pmc/articles/PMC777/"),
        ("Semantic Scholar PDF", "https://pdfs.org/a.pdf"),
        ("Europe PMC PDF", "https://epmc.org/a.pdf")] := by
  have h := oa_links_accumulation
    [("semantic_scholar",
        SrcVal.semantic_scholar { openAccessPdf := some { url := some "https://pdfs.org/a.pdf" } }),
      ("europepmc",
        SrcVal.europepmc
          { isOpenAccess := some "Y",
            fullTextUrlList := some
              { fullTextUrl := [{ documentStyle := some "pdf", url := "https://epmc.org/a.pdf" }] } })]
    [("europepmc",
        SrcVal.europepmc
          { isOpenAccess := some "Y",
            fullTextUrlList := some
              { fullTextUrl := [{ documentStyle := some "pdf", url := "https://epmc.org/a.pdf" }] } }),
      ("semantic_scholar",
        SrcVal.semantic_scholar { openAccessPdf := some { url := some "https://pdfs.org/a.pdf" } })]
    (some "777") {} {}
    { openAccessPdf := some { url := some "https://pdfs.org/a.pdf" } }
    { isOpenAccess := some "Y",
      fullTextUrlList := some
        { fullTextUrl := [{ documentStyle := some "pdf", url := "https://epmc.org/a.pdf" }] } }
    (by decide) (List.Perm.swap _ _ _)
  rw [h.2.1]
  rfl

/-- C1 counterexample: the minimal report still renders a Citation Counts
section header (and its table header), so the document is 13 lines, not
the four the claim allows. -/
theorem citation_counts_always_emitted :
    "## Citation Counts" ∈
      to_markdown_lines (title_only_report "10.1234/abc" "A Paper") "2026-10-12" ∧
    (to_markdown_lines (title_only_report "10.1234/abc" "A Paper") "2026-10-12").length =
      13 := by
  exact ⟨by decide, rfl⟩

/-- C1 amended: for a report holding only the identifier and a non-empty
title, the rendered document is exactly the header line, a blank, the DOI
link line, a blank, a separator, a blank, the Citation Counts section
header and table header (emitted even though no source reports a count),
a blank, a separator, and the footer.  Every other section is omitted
when empty, but the Citation Counts header and table header are always
present. -/
theorem to_markdown_title_only_report (doi t today : String) (ht : t ≠ "") :
    to_markdown_lines (title_only_report doi t) today =
      ["# " ++ t, "",
        "**DOI:** [" ++ doi ++ "](https://doi.org/" ++ doi ++ ")", "",
        "---", "",
        "## Citation Counts", "",
        "| Source | Citations | Notes |", "|--------|-----------|-------|", "",
        "---",
        "*Generated by Lazy Scholar CLI on " ++ today ++ "*"] := by
  simp [to_markdown_lines, title_only_report, crOf, oaOf, ssOf, epmcOf, ppOf,
    lookupSrc, reconcile_title, cr_first_title, pyOrS, extract_authors,
    crossref_names, openalex_names, semantic_names, extract_journal,
    extract_date, find_date_parts, oa_or_epmc_date, extract_oa_links,
    extract_notices, noticeOf, first_pdf_url, first_cc_license, ht]

/-- C1 witness: the amended rendering at a concrete report. -/
theorem to_markdown_title_only_report_witness :
    to_markdown_lines (title_only_report "10.1234/abc" "A Paper") "2026-10-12" =
      ["# " ++ "A Paper", "",
        "**DOI:** [" ++ "10.1234/abc" ++ "](https://doi.org/" ++ "10.1234/abc" ++ ")", "",
        "---", "",
        "## Citation Counts", "",
        "| Source | Citations | Notes |", "|--------|-----------|-------|", "",
        "---",
        "*Generated by Lazy Scholar CLI on " ++ "2026-10-12" ++ "*"] :=
  to_markdown_title_only_report "10.1234/abc" "A Paper" "2026-10-12" (by decide)

/-! ## C2/C5 infrastructure: inverting the DOI match and the strips -/

theorem suffix_of_suffix_length_le {s₁ s₂ L : List Char} (h₁ : s₁ <:+ L) (h₂ : s₂ <:+ L)
    (hl : s₁.length ≤ s₂.length) : s₁ <:+ s₂ := by
  rw [← List.reverse_prefix] at h₁ h₂ ⊢
  exact List.prefix_of_prefix_length_le h₁ h₂
    (by simp only [List.length_reverse]; exact hl)

theorem all_of_sublist {p : Char → Bool} {s l : List Char} (hs : List.Sublist s l)
    (hl : l.all p = true) : s.all p = true := by
  rw [List.all_eq_true] at hl ⊢
  exact fun x hx => hl x (hs.subset hx)

theorem takeWhile_eq_self_of_all {p : Char → Bool} {l : List Char} (h : l.all p = true) :
    l.takeWhile p = l := by
  induction l with
  | nil => rfl
  | cons c t ih =>
    rw [List.all_cons, Bool.and_eq_true] at h
    rw [List.takeWhile_cons, if_pos h.1, ih h.2]

theorem takeWhile_all (p : Char → Bool) (l : List Char) : (l.takeWhile p).all p = true := by
  induction l with
  | nil => rfl
  | cons c t ih =>
    rw [List.takeWhile_cons]
    split_ifs with h
    · rw [List.all_cons, h]
      simp [ih]
    · rfl

theorem takeWhile_append_all {p : Char → Bool} {x : List Char} (hx : x.all p = true)
    {c : Char} (hc : p c = false) (y : List Char) :
    (x ++ c :: y).takeWhile p = x := by
  induction x with
  | nil => simp [List.takeWhile_cons, hc]
  | cons a t ih =>
    rw [List.all_cons, Bool.and_eq_true] at hx
    rw [List.cons_append, List.takeWhile_cons, if_pos hx.1, ih hx.2]

theorem dropWhile_append_all {p : Char → Bool} {x : List Char} (hx : x.all p = true)
    {c : Char} (hc : p c = false) (y : List Char) :
    (x ++ c :: y).dropWhile p = c :: y := by
  induction x with
  | nil => simp [List.dropWhile_cons, hc]
  | cons a t ih =>
    rw [List.all_cons, Bool.and_eq_true] at hx
    rw [List.cons_append, List.dropWhile_cons, if_pos hx.1, ih hx.2]

theorem dropWhile_append_not {p : Char → Bool} {c : Char} (hc : p c = false)
    (x y : List Char) : (x ++ c :: y).dropWhile p = x.dropWhile p ++ c :: y := by
  induction x with
  | nil => simp [List.dropWhile_cons, hc]
  | cons a t ih =>
    rw [List.cons_append, List.dropWhile_cons, List.dropWhile_cons]
    split_ifs with h
    · exact ih
    · rfl

theorem pyRstrip_append (a b : List Char) :
    pyRstrip (a ++ '/' :: b) = a ++ '/' :: pyRstrip b := by
  unfold pyRstrip
  rw [List.reverse_append, List.reverse_cons, List.append_assoc, List.singleton_append,
    dropWhile_append_not (by decide) b.reverse a.reverse,
    List.reverse_append, List.reverse_cons, List.reverse_reverse,
    List.append_assoc, List.singleton_append]

theorem pyRstrip_initial (l : List Char) : pyRstrip l <+: l := by
  unfold pyRstrip
  conv_rhs => rw [← List.reverse_reverse l]
  exact List.reverse_prefix.mpr (List.dropWhile_suffix _)

theorem suffix_no_slash_length {ext A B : List Char} (h : ext <:+ A ++ '/' :: B)
    (hsl : '/' ∉ ext) : ext.length ≤ B.length := by
  by_contra hlen
  push_neg at hlen
  have h2 : '/' :: B <:+ A ++ '/' :: B := ⟨A, rfl⟩
  have h3 : '/' :: B <:+ ext :=
    suffix_of_suffix_length_le h2 h (by simpa using hlen)
  obtain ⟨t, ht⟩ := h3
  exact hsl (ht ▸ List.mem_append.mpr (Or.inr (List.mem_cons_self _ _)))

theorem stripExtOnce_append {ext : List Char} (hsl : '/' ∉ ext) (a b : List Char) :
    ∃ b2, stripExtOnce (a ++ '/' :: b) ext = a ++ '/' :: b2 ∧ b2 <+: b := by
  unfold stripExtOnce
  split_ifs with h
  · rw [List.map_append, List.map_cons, show Char.toLower '/' = '/' from rfl] at h
    have hlen : ext.length ≤ b.length := by
      have h5 := suffix_no_slash_length h hsl
      simpa using h5
    refine ⟨b.take (b.length - ext.length), ?_, List.take_prefix _ _⟩
    have harith : (a ++ '/' :: b).length - ext.length =
        a.length + (1 + (b.length - ext.length)) := by
      simp only [List.length_append, List.length_cons]
      omega
    rw [harith, List.take_append_eq_append_take,
      List.take_of_length_le (by omega), Nat.add_sub_cancel_left,
      show 1 + (b.length - ext.length) = (b.length - ext.length) + 1 from Nat.add_comm _ _,
      List.take_succ_cons]
  · exact ⟨b, rfl, List.prefix_refl b⟩

theorem stripFold_append (exts : List (List Char)) (hx : ∀ e ∈ exts, '/' ∉ e)
    (a : List Char) : ∀ b : List Char, ∃ b2,
      exts.foldl stripExtOnce (a ++ '/' :: b) = a ++ '/' :: b2 ∧ b2 <+: b := by
  induction exts with
  | nil => exact fun b => ⟨b, rfl, List.prefix_refl b⟩
  | cons e es ih =>
    intro b
    obtain ⟨b1, hb1, hp1⟩ := stripExtOnce_append (hx e (List.mem_cons_self _ _)) a b
    obtain ⟨b2, hb2, hp2⟩ := ih (fun x hxx => hx x (List.mem_cons_of_mem _ hxx)) b1
    refine ⟨b2, ?_, hp2.trans hp1⟩
    rw [List.foldl_cons, hb1, hb2]

theorem matchSlashBody_some {ds l g : List Char} (h : matchSlashBody ds l = some g) :
    ∃ r3, l = '/' :: r3 ∧ r3.takeWhile isAllowedChar ≠ [] ∧
      g = '1' :: '0' :: '.' :: (ds ++ '/' :: r3.takeWhile isAllowedChar) := by
  match l with
  | [] => simp [matchSlashBody] at h
  | s :: r3 =>
    simp only [matchSlashBody] at h
    split_ifs at h with hs hb
    subst hs
    exact ⟨r3, rfl, hb, (Option.some_inj.mp h).symm⟩

theorem matchAt_some {l g : List Char} (h : matchAt l = some g) :
    ∃ ds body, g = '1' :: '0' :: '.' :: (ds ++ '/' :: body) ∧
      ds.all Char.isDigit = true ∧ 4 ≤ ds.length ∧ ds.length ≤ 9 ∧
      body ≠ [] ∧ body.all isAllowedChar = true := by
  match l with
  | [] => simp [matchAt] at h
  | [a] => simp [matchAt] at h
  | [a, b] => simp [matchAt] at h
  | a :: b :: c :: rest =>
    simp only [matchAt] at h
    split_ifs at h with habc hlen
    obtain ⟨r3, _, hne, hg⟩ := matchSlashBody_some h
    exact ⟨rest.takeWhile Char.isDigit, r3.takeWhile isAllowedChar, hg,
      takeWhile_all _ _, hlen.1, hlen.2, hne, takeWhile_all _ _⟩

theorem searchDoi_some {l g : List Char} (h : searchDoi l = some g) :
    ∃ ds body, g = '1' :: '0' :: '.' :: (ds ++ '/' :: body) ∧
      ds.all Char.isDigit = true ∧ 4 ≤ ds.length ∧ ds.length ≤ 9 ∧
      body ≠ [] ∧ body.all isAllowedChar = true := by
  induction l with
  | nil => simp [searchDoi] at h
  | cons c t ih =>
    simp only [searchDoi] at h
    cases hm : matchAt (c :: t) with
    | some g2 =>
      rw [hm] at h
      injection h with h2
      exact h2 ▸ matchAt_some hm
    | none =>
      rw [hm] at h
      exact ih h

/-- Any successful extraction result has the shape
`10.` ++ digits ++ `/` ++ allowed-characters, with the digit run between
4 and 9 long (the tail after the slash may here be empty, because the
punctuation strip and the extension loop can consume all of it). -/
theorem extract_doi_some {s r : String} (h : extract_doi s = some r) :
    ∃ ds body, r.data = '1' :: '0' :: '.' :: (ds ++ '/' :: body) ∧
      ds.all Char.isDigit = true ∧ 4 ≤ ds.length ∧ ds.length ≤ 9 ∧
      body.all isAllowedChar = true := by
  unfold extract_doi at h
  cases hg : searchDoi s.data with
  | none => rw [hg] at h; exact absurd h (by simp)
  | some g =>
    rw [hg] at h
    injection h with h2
    obtain ⟨ds, body0, hg2, hds, h4, h9, _, hallow⟩ := searchDoi_some hg
    have hsplit : pyRstrip g = ('1' :: '0' :: '.' :: ds) ++ '/' :: pyRstrip body0 := by
      rw [hg2, show ('1' :: '0' :: '.' :: (ds ++ '/' :: body0)) =
        ('1' :: '0' :: '.' :: ds) ++ '/' :: body0 by simp, pyRstrip_append]
    obtain ⟨b2, hb2, hp2⟩ :=
      stripFold_append extTable (by decide) ('1' :: '0' :: '.' :: ds) (pyRstrip body0)
    refine ⟨ds, b2, ?_, hds, h4, h9, ?_⟩
    · have hr : r.data = stripExts (pyRstrip g) := by rw [← h2]
      rw [hr, hsplit]
      unfold stripExts
      rw [hb2]
      simp
    · exact all_of_sublist (hp2.sublist.trans (pyRstrip_initial body0).sublist) hallow

theorem all_ne_slash {ds : List Char} (hds : ds.all Char.isDigit = true) :
    ('1' :: '0' :: '.' :: ds).all (fun c => decide (c ≠ '/')) = true := by
  simp only [List.all_cons, Bool.and_eq_true]
  refine ⟨by decide, by decide, by decide, ?_⟩
  rw [List.all_eq_true] at hds ⊢
  intro x hx
  have hd := hds x hx
  simp only [decide_eq_true_eq]
  intro heq
  rw [heq] at hd
  exact absurd hd (by decide)

theorem matchAt_reconstruct {ds body : List Char} (hds : ds.all Char.isDigit = true)
    (h4 : 4 ≤ ds.length) (h9 : ds.length ≤ 9) (hbody : body ≠ [])
    (hallow : body.all isAllowedChar = true) :
    matchAt ('1' :: '0' :: '.' :: (ds ++ '/' :: body)) =
      some ('1' :: '0' :: '.' :: (ds ++ '/' :: body)) := by
  have ht1 : (ds ++ '/' :: body).takeWhile Char.isDigit = ds :=
    takeWhile_append_all hds (show Char.isDigit '/' = false by decide) body
  have ht2 : (ds ++ '/' :: body).dropWhile Char.isDigit = '/' :: body :=
    dropWhile_append_all hds (show Char.isDigit '/' = false by decide) body
  simp [matchAt, matchSlashBody, ht1, ht2, takeWhile_eq_self_of_all hallow,
    h4, h9, hbody]

theorem searchDoi_of_matchAt {c : Char} {t g : List Char}
    (hm : matchAt (c :: t) = some g) : searchDoi (c :: t) = some g := by
  simp only [searchDoi, hm]

/-- C2 amended: extraction is idempotent for every input whose extracted
identifier does not end in the trailing punctuation `.,;:`, does not end
(case-insensitively) in one of the known extensions, and has at least one
character after its first slash: re-running `extract_doi` on such an
extracted identifier returns it unchanged.  (The excluded cases are
exactly where idempotence fails: see the counterexample.) -/
theorem extract_doi_idempotent_on_clean (s r : String) (h : extract_doi s = some r)
    (hpunct : pyRstrip r.data = r.data) (hext : stripExts r.data = r.data)
    (hslash : tailAfterSlash r.data ≠ []) :
    extract_doi r = some r := by
  obtain ⟨ds, body, hr, hds, h4, h9, hallow⟩ := extract_doi_some h
  have htail : tailAfterSlash r.data = body := by
    rw [hr]
    unfold tailAfterSlash
    rw [show ('1' :: '0' :: '.' :: (ds ++ '/' :: body)) =
      ('1' :: '0' :: '.' :: ds) ++ '/' :: body by simp,
      dropWhile_append_all (all_ne_slash hds) (by decide) body]
    rfl
  have hbody : body ≠ [] := by
    rw [← htail]
    exact hslash
  have hmatch := matchAt_reconstruct hds h4 h9 hbody hallow
  have hsearch : searchDoi r.data = some r.data := by
    rw [hr]
    exact searchDoi_of_matchAt hmatch
  unfold extract_doi
  simp only [hsearch, hpunct, hext]

/-- C2 counterexample: extraction succeeds on "10.1234/abc.pdf.pdf" with
result "10.1234/abc.pdf" (the loop strips ".pdf" once), but re-running
extraction on that result strips the remaining ".pdf" and returns a
different identifier — so extraction is not idempotent as claimed. -/
theorem extract_doi_not_idempotent :
    extract_doi "10.1234/abc.pdf.pdf" = some "10.1234/abc.pdf" ∧
    extract_doi "10.1234/abc.pdf" = some "10.1234/abc" ∧
    ("10.1234/abc" : String) ≠ "10.1234/abc.pdf" := by
  refine ⟨by decide, by decide, by decide⟩

/-- C2 witness: a clean identifier extracted from surrounding text is a
fixed point of extraction. -/
theorem extract_doi_idempotent_on_clean_witness :
    extract_doi "10.1234/abc" = some "10.1234/abc" :=
  extract_doi_idempotent_on_clean "see 10.1234/abc ok" "10.1234/abc"
    (by decide) (by decide) (by decide) (by decide)

theorem stripExtOnce_no {e l : List Char} (h : ¬ e <:+ l.map Char.toLower) :
    stripExtOnce l e = l := by
  unfold stripExtOnce
  rw [if_neg h]

theorem stripExtOnce_strip {W e : List Char} (hmap : e.map Char.toLower = e) :
    stripExtOnce (W ++ e) e = W := by
  unfold stripExtOnce
  rw [if_pos (by rw [List.map_append, hmap]; exact List.suffix_append _ _)]
  rw [List.length_append, Nat.add_sub_cancel, List.take_left]

theorem not_suffix_append_short {e1 e2 : List Char} (X : List Char)
    (hlen : e1.length ≤ e2.length) (hne : ¬ e1 <:+ e2) : ¬ e1 <:+ X ++ e2 :=
  fun h => hne (suffix_of_suffix_length_le h (List.suffix_append X e2) hlen)

theorem not_suffix_append_long {e1 e2 : List Char} (X : List Char)
    (hlen : e2.length ≤ e1.length) (hne : ¬ e2 <:+ e1) : ¬ e1 <:+ X ++ e2 :=
  fun h => hne (suffix_of_suffix_length_le (List.suffix_append X e2) h hlen)

theorem not_ext_suffix_of_stem {e ds stem : List Char} (hsl : '/' ∉ e)
    (hne : ¬ e <:+ stem.map Char.toLower) :
    ¬ e <:+ ('1' :: '0' :: '.' :: (ds ++ '/' :: stem)).map Char.toLower := by
  intro h
  have hmapsplit : ('1' :: '0' :: '.' :: (ds ++ '/' :: stem)).map Char.toLower =
      ('1' :: '0' :: '.' :: ds).map Char.toLower ++ '/' :: stem.map Char.toLower := by
    rw [show ('1' :: '0' :: '.' :: (ds ++ '/' :: stem)) =
      ('1' :: '0' :: '.' :: ds) ++ '/' :: stem by simp]
    simp [List.map_append, show Char.toLower '/' = '/' from rfl]
  rw [hmapsplit] at h
  have hlen := suffix_no_slash_length h hsl
  have h2 : stem.map Char.toLower <:+
      ('1' :: '0' :: '.' :: ds).map Char.toLower ++ '/' :: stem.map Char.toLower :=
    ⟨('1' :: '0' :: '.' :: ds).map Char.toLower ++ ['/'], by simp⟩
  exact hne (suffix_of_suffix_length_le h h2 hlen)

theorem pyRstrip_append_keep {x e : List Char} {c : Char} {cs : List Char}
    (hrev : e.reverse = c :: cs) (hc : isTrailPunct c = false) :
    pyRstrip (x ++ e) = x ++ e := by
  unfold pyRstrip
  rw [List.reverse_append, hrev,
    show ((c :: cs) ++ x.reverse).dropWhile isTrailPunct = (c :: cs) ++ x.reverse by
      rw [List.cons_append, List.dropWhile_cons, hc]; simp,
    ← hrev, ← List.reverse_append, List.reverse_reverse]

theorem pyRstrip_append_ext {x e : List Char} (he : e ∈ extTable) :
    pyRstrip (x ++ e) = x ++ e := by
  fin_cases he
  · exact pyRstrip_append_keep
      (show (".pdf" : String).data.reverse = 'f' :: ['d', 'p', '.'] by decide) (by decide)
  · exact pyRstrip_append_keep
      (show (".html" : String).data.reverse = 'l' :: ['m', 't', 'h', '.'] by decide) (by decide)
  · exact pyRstrip_append_keep
      (show (".full" : String).data.reverse = 'l' :: ['l', 'u', 'f', '.'] by decide) (by decide)
  · exact pyRstrip_append_keep
      (show (".xml" : String).data.reverse = 'l' :: ['m', 'x', '.'] by decide) (by decide)

theorem stripExts_append_ext {X e : List Char} (he : e ∈ extTable)
    (hno : ∀ e2 ∈ extTable, ¬ e2 <:+ X.map Char.toLower) :
    stripExts (X ++ e) = X := by
  fin_cases he
  · have s1 : stripExtOnce (X ++ ".pdf".data) ".pdf".data = X :=
      stripExtOnce_strip (by decide)
    have s2 : stripExtOnce X ".html".data = X := stripExtOnce_no (hno _ (by decide))
    have s3 : stripExtOnce X ".full".data = X := stripExtOnce_no (hno _ (by decide))
    have s4 : stripExtOnce X ".xml".data = X := stripExtOnce_no (hno _ (by decide))
    unfold stripExts extTable
    rw [List.foldl_cons, s1, List.foldl_cons, s2, List.foldl_cons, s3,
      List.foldl_cons, s4, List.foldl_nil]
  · have s1 : stripExtOnce (X ++ ".html".data) ".pdf".data = X ++ ".html".data :=
      stripExtOnce_no (by
        rw [List.map_append, show (".html".data).map Char.toLower = ".html".data by decide]
        exact not_suffix_append_short _ (by decide) (by decide))
    have s2 : stripExtOnce (X ++ ".html".data) ".html".data = X :=
      stripExtOnce_strip (by decide)
    have s3 : stripExtOnce X ".full".data = X := stripExtOnce_no (hno _ (by decide))
    have s4 : stripExtOnce X ".xml".data = X := stripExtOnce_no (hno _ (by decide))
    unfold stripExts extTable
    rw [List.foldl_cons, s1, List.foldl_cons, s2, List.foldl_cons, s3,
      List.foldl_cons, s4, List.foldl_nil]
  · have s1 : stripExtOnce (X ++ ".full".data) ".pdf".data = X ++ ".full".data :=
      stripExtOnce_no (by
        rw [List.map_append, show (".full".data).map Char.toLower = ".full".data by decide]
        exact not_suffix_append_short _ (by decide) (by decide))
    have s2 : stripExtOnce (X ++ ".full".data) ".html".data = X ++ ".full".data :=
      stripExtOnce_no (by
        rw [List.map_append, show (".full".data).map Char.toLower = ".full".data by decide]
        exact not_suffix_append_short _ (by decide) (by decide))
    have s3 : stripExtOnce (X ++ ".full".data) ".full".data = X :=
      stripExtOnce_strip (by decide)
    have s4 : stripExtOnce X ".xml".data = X := stripExtOnce_no (hno _ (by decide))
    unfold stripExts extTable
    rw [List.foldl_cons, s1, List.foldl_cons, s2, List.foldl_cons, s3,
      List.foldl_cons, s4, List.foldl_nil]
  · have s1 : stripExtOnce (X ++ ".xml".data) ".pdf".data = X ++ ".xml".data :=
      stripExtOnce_no (by
        rw [List.map_append, show (".xml".data).map Char.toLower = ".xml".data by decide]
        exact not_suffix_append_short _ (by decide) (by decide))
    have s2 : stripExtOnce (X ++ ".xml".data) ".html".data = X ++ ".xml".data :=
      stripExtOnce_no (by
        rw [List.map_append, show (".xml".data).map Char.toLower = ".xml".data by decide]
        exact not_suffix_append_long _ (by decide) (by decide))
    have s3 : stripExtOnce (X ++ ".xml".data) ".full".data = X ++ ".xml".data :=
      stripExtOnce_no (by
        rw [List.map_append, show (".xml".data).map Char.toLower = ".xml".data by decide]
        exact not_suffix_append_long _ (by decide) (by decide))
    have s4 : stripExtOnce (X ++ ".xml".data) ".xml".data = X :=
      stripExtOnce_strip (by decide)
    unfold stripExts extTable
    rw [List.foldl_cons, s1, List.foldl_cons, s2, List.foldl_cons, s3,
      List.foldl_cons, s4, List.foldl_nil]

/-- C5 amended: for an identifier whose stem ends with a single known
extension, extraction removes that extension; the loop tests the four
extensions in the fixed order `.pdf`, `.html`, `.full`, `.xml`, each at
most once against the current value, so several stacked extensions can be
removed in one pass (see the counterexample) — here the stem itself ends
with none of them, so exactly the one appended extension is stripped. -/
theorem extension_strip_behavior (ds stem ext : List Char)
    (hds : ds.all Char.isDigit = true) (h4 : 4 ≤ ds.length) (h9 : ds.length ≤ 9)
    (hstem : stem ≠ []) (hall : stem.all isAllowedChar = true)
    (hne : ∀ e ∈ extTable, ¬ e <:+ stem.map Char.toLower)
    (hext : ext ∈ extTable) :
    extract_doi (String.mk ('1' :: '0' :: '.' :: (ds ++ '/' :: (stem ++ ext)))) =
      some (String.mk ('1' :: '0' :: '.' :: (ds ++ '/' :: stem))) := by
  have hextall : ext.all isAllowedChar = true := by
    have hx : ∀ e ∈ extTable, e.all isAllowedChar = true := by decide
    exact hx ext hext
  have hbodyall : (stem ++ ext).all isAllowedChar = true := by
    rw [List.all_append, hall, hextall]
    rfl
  have hbodyne : stem ++ ext ≠ [] := by
    intro hb
    exact hstem (List.append_eq_nil.mp hb).1
  have hmatch := matchAt_reconstruct hds h4 h9 hbodyne hbodyall
  have hsearch := searchDoi_of_matchAt hmatch
  have hEq : ('1' :: '0' :: '.' :: (ds ++ '/' :: (stem ++ ext))) =
      ('1' :: '0' :: '.' :: (ds ++ '/' :: stem)) ++ ext := by simp
  have hslash : ∀ e2 ∈ extTable, '/' ∉ e2 := by decide
  unfold extract_doi
  simp only [hsearch]
  have hdata : stripExts (pyRstrip ('1' :: '0' :: '.' :: (ds ++ '/' :: (stem ++ ext)))) =
      '1' :: '0' :: '.' :: (ds ++ '/' :: stem) := by
    rw [hEq, pyRstrip_append_ext hext,
      stripExts_append_ext hext
        (fun e2 he2 => not_ext_suffix_of_stem (hslash e2 he2) (hne e2 he2))]
  rw [hdata]

/-- C5 counterexample: on "10.1234/abc.html.pdf" the loop strips ".pdf"
first and then ".html" from the shortened value, removing two extensions,
whereas the claim ("exactly one extension is removed, never more") would
give "10.1234/abc.html". -/
theorem extension_strip_not_single :
    extract_doi "10.1234/abc.html.pdf" = some "10.1234/abc" ∧
    ("10.1234/abc" : String) ≠ "10.1234/abc.html" := by
  refine ⟨by decide, by decide⟩

/-- C5 witness: the claim's own example, "10.1234/abc.pdf" yields
"10.1234/abc". -/
theorem extension_strip_behavior_witness :
    extract_doi "10.1234/abc.pdf" = some "10.1234/abc" := by
  have h := extension_strip_behavior "1234".data "abc".data ".pdf".data
    (by decide) (by decide) (by decide) (by decide) (by decide) (by decide) (by decide)
  have e1 : ("10.1234/abc.pdf" : String) =
      String.mk ('1' :: '0' :: '.' :: ("1234".data ++ '/' :: ("abc".data ++ ".pdf".data))) := by
    decide
  have e2 : some (String.mk ('1' :: '0' :: '.' :: ("1234".data ++ '/' :: "abc".data))) =
      some ("10.1234/abc" : String) := by decide
  rw [e1, h]
  exact e2
